import Mathlib

/-!
Verification development for the carbon-emission aggregation pipeline of the
`excel_table` example (crates/story/examples/excel_table.rs).

Shallow embedding conventions:
* Spreadsheet cells, database text columns and codes are Lean `String`s.
* Numeric values that the source keeps as `f64` (carbon factors, quantities,
  subtotals) are carried as exact rationals `ℚ`; cells that the source renders
  with `format!("{:.2}")`/`format!("{:.4}")` are carried as the underlying
  exact value, with `Option.none` standing for an empty rendered cell.
  Display rounding is presentation only and is not modelled.
* The SQLite storage engine is an external collaborator; its documented
  text-to-real coercion (`CAST`), `substr`, `instr` and `LIKE` behaviours are
  modelled by explicit Lean functions on characters.
* String routines (`trim`, `starts_with`, lexicographic order) are modelled
  over `List Char` so that all definitions evaluate by kernel reduction.
-/

/-! ### String primitives -/

/-- `str::trim` (whitespace stripped from both ends). -/
def trimS (s : String) : String :=
  ((s.toList.dropWhile Char.isWhitespace).reverse.dropWhile Char.isWhitespace).reverse.asString

/-- Code-point lexicographic strict order on character lists; byte-wise
comparison of UTF-8 (Rust `String: Ord`) coincides with it. -/
def lexLt : List Char → List Char → Bool
  | _, [] => false
  | [], _ :: _ => true
  | a :: as, b :: bs =>
    if a.toNat < b.toNat then true
    else if a.toNat = b.toNat then lexLt as bs else false

def strLeB (a b : String) : Bool := !(lexLt b.toList a.toList)

def insertSorted (s : String) : List String → List String
  | [] => [s]
  | t :: ts => if strLeB s t then s :: t :: ts else t :: insertSorted s ts

/-- `Vec::sort` on the collected group keys. -/
def sortKeys (l : List String) : List String := l.foldr insertSorted []

/-! ### Numeric text parsing

One shared token reader serves the two text-to-number coercions the program
relies on: SQLite's `CAST(.. AS FLOAT)` (longest numeric value, default 0.0)
and Rust's `str::parse::<f64>()` (whole string must be numeric). -/

def digitsToNat (ds : List Char) : ℕ :=
  ds.foldl (fun n c => 10 * n + (c.toNat - 48)) 0

def spanDigits (cs : List Char) : List Char × List Char :=
  (cs.takeWhile Char.isDigit, cs.dropWhile Char.isDigit)

/-- A decimal numeric token: sign, integer digits, fraction digits, exponent
sign and digits (empty when absent), and the unconsumed remainder. -/
structure NumToken where
  neg : Bool
  ip : List Char
  fp : List Char
  en : Bool
  ed : List Char
  rest : List Char
  deriving DecidableEq

/-- Read one numeric token: optional sign, digits, optional `.digits`,
optional well-formed exponent. Fails when no mantissa digit is present. -/
def numSplit (cs : List Char) : Option NumToken :=
  let s1 : Bool × List Char :=
    match cs with
    | '-' :: t => (true, t)
    | '+' :: t => (false, t)
    | t => (false, t)
  let ipd := spanDigits s1.2
  let fpd : List Char × List Char :=
    match ipd.2 with
    | '.' :: t => spanDigits t
    | t => ([], t)
  if ipd.1.isEmpty ∧ fpd.1.isEmpty then Option.none
  else
    let noExp : NumToken := ⟨s1.1, ipd.1, fpd.1, false, [], fpd.2⟩
    match fpd.2 with
    | c :: t =>
      if c = 'e' ∨ c = 'E' then
        let s2 : Bool × List Char :=
          match t with
          | '-' :: u => (true, u)
          | '+' :: u => (false, u)
          | u => (false, u)
        let edd := spanDigits s2.2
        if edd.1.isEmpty then some noExp
        else some ⟨s1.1, ipd.1, fpd.1, s2.1, edd.1, edd.2⟩
      else some noExp
    | [] => some noExp

/-- Exact rational value of a numeric token. -/
def tokenVal (t : NumToken) : ℚ :=
  let mant : ℚ := (digitsToNat t.ip : ℚ) + (digitsToNat t.fp : ℚ) / (10 : ℚ) ^ t.fp.length
  let sgn : ℚ := if t.neg then -1 else 1
  let ex : ℤ := if t.en then -(digitsToNat t.ed : ℤ) else (digitsToNat t.ed : ℤ)
  sgn * mant * (10 : ℚ) ^ ex

/-- SQLite `CAST(text AS FLOAT)`: skip leading whitespace, take the longest
numeric value, 0.0 when the text carries no leading numeric token. -/
def castFloat (s : String) : ℚ :=
  match numSplit (s.toList.dropWhile Char.isWhitespace) with
  | some t => tokenVal t
  | Option.none => 0

/-- Rust `str::parse::<f64>()` on the decimal grammar: the whole string must
be one numeric literal (no surrounding whitespace; `inf`/`NaN` spellings never
occur on this program's data path and are not modelled). -/
def parseF64 (s : String) : Option ℚ :=
  match numSplit s.toList with
  | some t => if t.rest.isEmpty then some (tokenVal t) else Option.none
  | Option.none => Option.none

/-! ### Category (excel_table.rs lines 29-79) -/

inductive Category where
  | labor
  | material
  | machine
  | none
  deriving DecidableEq

/-- `Category::from_type_column`: trims the 名称及规格 text and matches the
three fixed marker strings exactly. -/
def Category.from_type_column (s : String) : Option Category :=
  match trimS s with
  | "人工类别" => some Category.labor
  | "材料类别" => some Category.material
  | "机械类别" => some Category.machine
  | _ => Option.none

/-- `Category::prefix` in the source: the one-letter code marker. -/
def Category.letterOf : Category → String
  | Category.labor => "L"
  | Category.material => "M"
  | Category.machine => "E"
  | Category.none => ""

/-- `Category::to_string`. -/
def Category.to_string : Category → String
  | Category.labor => "labor"
  | Category.material => "material"
  | Category.machine => "machine"
  | Category.none => "none"

/-- `Category::from_string`. -/
def Category.from_string (s : String) : Category :=
  match s with
  | "labor" => Category.labor
  | "material" => Category.material
  | "machine" => Category.machine
  | _ => Category.none

/-! ### Persisted data model (tables `sheets` and `excel_data`) -/

/-- One `excel_data` row (the seven text columns plus the category tag; the
`carbon_factor`/`carbon_emission` columns are constants at insert time and
are recomputed by every reader, so they are not carried). -/
structure ExcelRow where
  «序号» : String
  «编码» : String
  «名称及规格» : String
  «单位» : String
  «数量» : String
  «市场价» : String
  «合计» : String
  category : Category
  deriving DecidableEq

/-- One `sheets` row together with its `excel_data` rows in `id` order. -/
structure SheetData where
  name : String
  rows : List ExcelRow
  deriving DecidableEq

/-- The store, sheets in `id` (insertion) order. -/
abbrev DbState := List SheetData

/-- One row of a reference table (`labor`/`material`/`machine`). -/
structure RefEntry where
  code : String
  name : String
  specification : String
  unit : String
  carbon_factor : ℚ
  deriving DecidableEq

/-- The three reference-factor tables. -/
structure RefDB where
  labor : List RefEntry
  material : List RefEntry
  machine : List RefEntry
  deriving DecidableEq

/-! ### Sheet importer (IndicatorStory::load_excel, lines 571-775) -/

/-- One worksheet row as read by the spreadsheet library, cells coerced to
strings (the reader is an external collaborator). -/
abbrev CellRow := List String

structure WorkSheet where
  name : String
  cells : List CellRow
  deriving DecidableEq

/-- `IndicatorStory::required_columns`. -/
def requiredColumns : List String :=
  ["序号", "编码", "名称及规格", "单位", "数量", "市场价", "合计"]

/-- The non-empty trimmed cells of a row, indexed by column
(`header_columns`). -/
def headerCells (row : CellRow) : List (ℕ × String) :=
  (List.enumFrom 0 row).filterMap
    (fun p => if trimS p.2 = "" then Option.none else some (p.1, trimS p.2))

/-- The header heuristic: every required column name appears among the row's
non-empty trimmed cell values. -/
def isHeaderRow (row : CellRow) : Bool :=
  requiredColumns.all (fun rc => (headerCells row).any (fun p => p.2 = rc))

/-- `rows.iter().position(..)` over the header heuristic. -/
def findHeaderIdx (cells : List CellRow) : Option ℕ :=
  cells.findIdx? isHeaderRow

/-- The column chosen for one required header name (`column_mapping` lookup;
the source iterates a `HashMap` in unspecified order — modelled as the first
matching column index). -/
def colFor (headerRow : CellRow) (rc : String) : Option ℕ :=
  ((headerCells headerRow).find? (fun p => p.2 = rc)).map (fun p => p.1)

/-- The collected (trimmed) value of one required column in a data row; `""`
when the cell is absent or empty — exactly the value that reaches the
`INSERT` via `row_data.get(..).unwrap_or(&String::new())`. -/
def cellValue (headerRow row : CellRow) (rc : String) : String :=
  match colFor headerRow rc with
  | some i => trimS ((row.get? i).getD "")
  | Option.none => ""

/-- The importer's inline category-marker test on the raw third cell
(`row.get(2)` then `trim`, compared with the three marker strings). -/
def rowMarker (row : CellRow) : Option Category :=
  match trimS ((row.get? 2).getD "") with
  | "人工类别" => some Category.labor
  | "材料类别" => some Category.material
  | "机械类别" => some Category.machine
  | _ => Option.none

/-- Rust `code.starts_with('L') || code.starts_with('M') || code.starts_with('E')`. -/
def startsWithLME (code : String) : Bool :=
  match code.toList with
  | c :: _ => (c == 'L') || (c == 'M') || (c == 'E')
  | [] => false

/-- Code prefixing, lines 681-687: a 编码 value already starting with one of
the three letters is kept; otherwise the current category's letter (source
`Category::prefix`) is prepended. -/
def applyLetter (cat : Category) (code : String) : String :=
  if startsWithLME code then code else cat.letterOf ++ code

/-- The row-insertion loop below the header row: thread the "current
category" through the rows, skip marker rows and all-empty rows, prefix the
编码 value when present, and tag each persisted row with the category. -/
def importDataRows (headerRow : CellRow) : List CellRow → Category → List ExcelRow
  | [], _ => []
  | row :: rest, cat =>
    match rowMarker row with
    | some c => importDataRows headerRow rest c
    | Option.none =>
      if requiredColumns.all (fun rc => cellValue headerRow row rc = "") then
        importDataRows headerRow rest cat
      else
        let code0 := cellValue headerRow row "编码"
        { «序号» := cellValue headerRow row "序号"
          «编码» := if code0 = "" then "" else applyLetter cat code0
          «名称及规格» := cellValue headerRow row "名称及规格"
          «单位» := cellValue headerRow row "单位"
          «数量» := cellValue headerRow row "数量"
          «市场价» := cellValue headerRow row "市场价"
          «合计» := cellValue headerRow row "合计"
          category := cat } :: importDataRows headerRow rest cat

/-- Import of one worksheet: skipped when its range is empty or no row
passes the header heuristic; otherwise the rows below the header are
processed starting from category `None`. -/
def importSheet (ws : WorkSheet) : Option SheetData :=
  if ws.cells.isEmpty then Option.none
  else
    match findHeaderIdx ws.cells with
    | some idx =>
        some ⟨ws.name, importDataRows ((ws.cells.get? idx).getD []) (ws.cells.drop (idx + 1)) Category.none⟩
    | Option.none => Option.none

inductive ImportOutcome where
  | success
  | noValidData
  deriving DecidableEq

/-- `IndicatorStory::load_excel` on an opened workbook and store: the
transaction first deletes both tables and re-inserts every matching
worksheet; it is committed only when at least one worksheet matched
(`success`), otherwise it is dropped and rolled back, leaving the previous
store state, and the distinct "未找到任何有效的工作表数据" condition is
reported. -/
def load_excel (st : DbState) (wb : List WorkSheet) : DbState × ImportOutcome :=
  let cleared : DbState := []
  let imported := wb.filterMap importSheet
  if imported.isEmpty then (st, ImportOutcome.noValidData)
  else (cleared ++ imported, ImportOutcome.success)

/-! ### Aggregation engine (ResultTableDelegate::update_data, lines 1240-1478) -/

/-- The sheet-name split performed in SQL:
`CASE WHEN instr(name,' ')>0 THEN substr(name,1,instr(name,' ')-1) ELSE name END`. -/
def sheetTypeOf (name : String) : String :=
  (name.toList.takeWhile (fun c => c ≠ ' ')).asString

/-- `CASE WHEN instr(name,' ')>0 THEN substr(name,instr(name,' ')+1) ELSE '' END`. -/
def shortNameOf (name : String) : String :=
  ((name.toList.dropWhile (fun c => c ≠ ' ')).drop 1).asString

/-- First match in a reference table (`code` is its primary key). -/
def refLookup (tbl : List RefEntry) (code : String) : Option RefEntry :=
  tbl.find? (fun r => r.code = code)

/-- SQLite `substr(x, 2)`: drop the first character. -/
def stripFirst (s : String) : String := (s.toList.drop 1).asString

/-- The `real_carbon_factor` CASE expression of the aggregation query: left
joins of `excel_data` against the three reference tables on
`substr(编码,2) = code`, keyed by the row's category, defaulting to 1.0. -/
def real_carbon_factor (ref : RefDB) (e : ExcelRow) : ℚ :=
  match e.category with
  | Category.labor =>
      match refLookup ref.labor (stripFirst e.«编码») with
      | some r => r.carbon_factor
      | Option.none => 1
  | Category.material =>
      match refLookup ref.material (stripFirst e.«编码») with
      | some r => r.carbon_factor
      | Option.none => 1
  | Category.machine =>
      match refLookup ref.machine (stripFirst e.«编码») with
      | some r => r.carbon_factor
      | Option.none => 1
  | Category.none => 1

/-- One row's contribution `CAST(NULLIF(数量,'') AS FLOAT) * real_carbon_factor`. -/
def rowEmission (ref : RefDB) (e : ExcelRow) : ℚ :=
  castFloat e.«数量» * real_carbon_factor ref e

/-- One category's group in
`SELECT category, SUM(.. * real_carbon_factor) .. WHERE category IS NOT NULL AND 数量 != '' GROUP BY category`
(0 when the group is absent, matching the 0.0-initialised accumulators). -/
def categoryTotal (ref : RefDB) (rows : List ExcelRow) (c : Category) : ℚ :=
  ((rows.filter (fun e => e.category = c ∧ e.«数量» ≠ "")).map (rowEmission ref)).sum

/-- One result-table row; the four numeric cells, rendered by the source with
`format!("{:.2}", ..)`, are carried exactly, `Option.none` being the empty
cell of a type-header row. -/
structure ResultRow where
  «序号» : String
  «编码» : String
  «名称及规格» : String
  «项目名称» : String
  «单位» : String
  «可研估算» : String
  «碳排放指数» : String
  «人工» : Option ℚ
  «材料» : Option ℚ
  «机械» : Option ℚ
  «小计» : Option ℚ
  deriving DecidableEq

/-- One drill-down detail row; 碳排放因子 and 碳排放量, rendered by `format!`,
are carried exactly, `Option.none` being the empty cell. -/
structure SubItemRow where
  «序号» : String
  «编码» : String
  «名称及规格» : String
  «单位» : String
  «数量» : String
  «碳排放因子» : Option ℚ
  «碳排放量» : Option ℚ
  category : Category
  deriving DecidableEq

/-- `SubItemRow::default()`. -/
def SubItemRow.blank : SubItemRow :=
  ⟨"", "", "", "", "", Option.none, Option.none, Category.none⟩

/-- The type-header ordinal: "一","二","三", then Arabic numerals. -/
def ordinalLabel (n : ℕ) : String :=
  match n with
  | 1 => "一"
  | 2 => "二"
  | 3 => "三"
  | _ => toString n

/-- The type-header ResultRow pushed at lines 1313-1330. -/
def typeHeaderRow (idx : ℕ) (key : String) : ResultRow :=
  { «序号» := ordinalLabel idx, «编码» := "", «名称及规格» := "", «项目名称» := key
    «单位» := "", «可研估算» := "", «碳排放指数» := ""
    «人工» := Option.none, «材料» := Option.none, «机械» := Option.none, «小计» := Option.none }

/-- The sheet-summary ResultRow pushed at lines 1419-1431. -/
def sheetSummaryRow (ref : RefDB) (idx : ℕ) (s : SheetData) : ResultRow :=
  { «序号» := toString idx, «编码» := "", «名称及规格» := ""
    «项目名称» := trimS (shortNameOf s.name)
    «单位» := "m2", «可研估算» := "右键编辑", «碳排放指数» := ""
    «人工» := some (categoryTotal ref s.rows Category.labor)
    «材料» := some (categoryTotal ref s.rows Category.material)
    «机械» := some (categoryTotal ref s.rows Category.machine)
    «小计» := some (categoryTotal ref s.rows Category.labor
                    + categoryTotal ref s.rows Category.material
                    + categoryTotal ref s.rows Category.machine) }

/-- The raw per-sheet detail row loaded at lines 1434-1469 (the 编码 column
is never NULL, so the query's filter keeps every row). -/
def rawSubItem (ref : RefDB) (e : ExcelRow) : SubItemRow :=
  { «序号» := e.«序号», «编码» := e.«编码», «名称及规格» := e.«名称及规格»
    «单位» := e.«单位», «数量» := e.«数量»
    «碳排放因子» := some (real_carbon_factor ref e)
    «碳排放量» := Option.none, category := e.category }

/-- The sheets of one engineering-type group, in original insertion order
(`sheet_groups.entry(..).or_default().push(..)`). -/
def sheetsOfType (db : DbState) (key : String) : List SheetData :=
  db.filter (fun s => sheetTypeOf s.name = key)

/-- The sorted group keys (`type_keys.sort()`). -/
def typeKeys (db : DbState) : List String :=
  sortKeys ((db.map (fun s => sheetTypeOf s.name)).dedup)

/-- One type group's result rows: the type header followed by the group's
sheet summaries numbered from 1. -/
def groupResultRows (ref : RefDB) (idx : ℕ) (key : String) (db : DbState) : List ResultRow :=
  typeHeaderRow idx key ::
    (List.enumFrom 1 (sheetsOfType db key)).map (fun p => sheetSummaryRow ref p.1 p.2)

/-- `ResultTableDelegate::update_data`: the recomputed `total_rows` and
`sub_rows`. -/
def updateData (ref : RefDB) (db : DbState) : List ResultRow × List SubItemRow :=
  ( ((List.enumFrom 1 (typeKeys db)).map (fun p => groupResultRows ref p.1 p.2 db)).flatten,
    ((typeKeys db).map
      (fun k => ((sheetsOfType db k).map (fun s => s.rows.map (rawSubItem ref))).flatten)).flatten )

/-! ### Drill-down detail list
(CarbonResultPanel::load_sub_items_for_sheet, lines 1964-2230, and
ResultDetailsTableDelegate::set_rows, lines 2311-2402) -/

/-- SQL `名称及规格 LIKE '%类别'`: the raw text ends with "类别". -/
def endsWithCategory (s : String) : Bool :=
  s.toList.reverse.take 2 = ['别', '类']

/-- `categories.contains(..)`: the sheet has at least one row of the
category (the DISTINCT query over `excel_data`). -/
def categoryPresent (rows : List ExcelRow) (c : Category) : Bool :=
  rows.any (fun e => e.category = c)

/-- The per-category item query of `load_sub_items_for_sheet`
(`WHERE .. category = ? AND 名称及规格 NOT LIKE '%类别' ORDER BY id`). -/
def categoryItems (rows : List ExcelRow) (c : Category) : List ExcelRow :=
  rows.filter (fun e => e.category = c ∧ endsWithCategory e.«名称及规格» = false)

/-- The category-header text of the loader (`header_text`). -/
def headerTextOf : Category → String
  | Category.labor => "人工类别"
  | Category.material => "材料类别"
  | Category.machine => "机械类别"
  | Category.none => "未知类别"

/-- The category-header marker row pushed by `load_sub_items_for_sheet`. -/
def subHeaderRow (c : Category) : SubItemRow :=
  { «序号» := "", «编码» := "", «名称及规格» := headerTextOf c, «单位» := "", «数量» := ""
    «碳排放因子» := Option.none, «碳排放量» := Option.none, category := c }

/-- One loaded item row, renumbered `(i + 1).to_string()` by the loader. -/
def loadSubItem (ref : RefDB) (i : ℕ) (e : ExcelRow) : SubItemRow :=
  { «序号» := toString i, «编码» := e.«编码», «名称及规格» := e.«名称及规格»
    «单位» := e.«单位», «数量» := e.«数量»
    «碳排放因子» := some (real_carbon_factor ref e)
    «碳排放量» := Option.none, category := e.category }

/-- One category's block of `sub_items`: skipped when the category is absent
from the sheet, else the header row, the renumbered items, and a blank
separator for every category other than `machine`. -/
def loadSubItemsBlock (ref : RefDB) (rows : List ExcelRow) (c : Category) : List SubItemRow :=
  if categoryPresent rows c then
    subHeaderRow c ::
      ((List.enumFrom 1 (categoryItems rows c)).map (fun p => loadSubItem ref p.1 p.2)
        ++ (if c = Category.machine then [] else [SubItemRow.blank]))
  else []

/-- The `sub_items` vector built by `load_sub_items_for_sheet` for one
sheet's rows: the labor, material and machine blocks in that fixed order. -/
def load_sub_items (ref : RefDB) (rows : List ExcelRow) : List SubItemRow :=
  loadSubItemsBlock ref rows Category.labor
    ++ loadSubItemsBlock ref rows Category.material
    ++ loadSubItemsBlock ref rows Category.machine

/-- The first pass of `set_rows`: split the incoming rows into
`(category, rows)` groups, a marker 名称及规格 opening a new group (flushing a
non-empty current group) and non-marker rows being kept only when their 编码
is non-empty. -/
def scanGroups : List SubItemRow → Category → List SubItemRow → List (Category × List SubItemRow)
  | [], cat, cur => if cur.isEmpty then [] else [(cat, cur)]
  | r :: rs, cat, cur =>
    match Category.from_type_column r.«名称及规格» with
    | some c => if cur.isEmpty then scanGroups rs c [] else (cat, cur) :: scanGroups rs c []
    | Option.none =>
      if r.«编码» = "" then scanGroups rs cat cur
      else scanGroups rs cat (cur ++ [r])

/-- `category_title` of the second pass. -/
def groupTitleLabel : Category → String
  | Category.labor => "一、"
  | Category.material => "三、"
  | Category.machine => "四、"
  | Category.none => ""

/-- `category_name` of the second pass. -/
def groupCategoryName : Category → String
  | Category.labor => "人工"
  | Category.material => "材料"
  | Category.machine => "机械"
  | Category.none => ""

/-- `category_total`: sum of 数量 × 碳排放因子 over the group's rows whose
two fields both parse. -/
def groupTotal (g : List SubItemRow) : ℚ :=
  (g.map (fun r =>
    match parseF64 r.«数量», r.«碳排放因子» with
    | some q, some f => q * f
    | _, _ => 0)).sum

/-- The rebuilt category title row of the second pass. -/
def groupTitleRow (c : Category) (g : List SubItemRow) : SubItemRow :=
  { «序号» := groupTitleLabel c, «编码» := "", «名称及规格» := groupCategoryName c ++ "类别"
    «单位» := "", «数量» := "", «碳排放因子» := Option.none
    «碳排放量» := some (groupTotal g), category := c }

/-- One data row of the second pass: renumbered from 1, its 碳排放量 computed
when 数量 and 碳排放因子 both parse. -/
def renderItem (i : ℕ) (r : SubItemRow) : SubItemRow :=
  let base := { r with «序号» := toString i }
  match parseF64 r.«数量», r.«碳排放因子» with
  | some q, some f => { base with «碳排放量» := some (q * f) }
  | _, _ => base

/-- One rendered group: title row then renumbered items. -/
def renderGroup (c : Category) (g : List SubItemRow) : List SubItemRow :=
  groupTitleRow c g :: (List.enumFrom 1 g).map (fun p => renderItem p.1 p.2)

/-- The second pass: rendered groups with one blank separator between
consecutive groups and none after the last. -/
def emitGroups : List (Category × List SubItemRow) → List SubItemRow
  | [] => []
  | [g] => renderGroup g.1 g.2
  | g :: gs => renderGroup g.1 g.2 ++ SubItemRow.blank :: emitGroups gs

/-- `ResultDetailsTableDelegate::set_rows`. -/
def set_rows (input : List SubItemRow) : List SubItemRow :=
  emitGroups (scanGroups input Category.none [])

/-- The drill-down rows a sheet's data ends up displaying:
`load_sub_items_for_sheet` composed with `set_rows`. -/
def drillDown (ref : RefDB) (rows : List ExcelRow) : List SubItemRow :=
  set_rows (load_sub_items ref rows)

/-! Spec-side description of the drill-down list, for the refinement claim
about the category grouping. -/

/-- Modelled from the spec claim (amended): the line items of one category
that the drill-down actually displays — kept by the loader's
`NOT LIKE '%类别'` filter and by `set_rows`' non-empty-编码 filter. -/
def displayItems (rows : List ExcelRow) (c : Category) : List ExcelRow :=
  (categoryItems rows c).filter (fun e => e.«编码» ≠ "")

/-- Modelled from the spec claim: one displayed line item, numbered by its
1-based position among the category's displayed items, with its resolved
factor and, when the quantity parses, its computed emission. -/
def specItemRow (ref : RefDB) (i : ℕ) (e : ExcelRow) : SubItemRow :=
  { «序号» := toString i, «编码» := e.«编码», «名称及规格» := e.«名称及规格»
    «单位» := e.«单位», «数量» := e.«数量»
    «碳排放因子» := some (real_carbon_factor ref e)
    «碳排放量» :=
      match parseF64 e.«数量» with
      | some q => some (q * real_carbon_factor ref e)
      | Option.none => Option.none
    category := e.category }

/-- Modelled from the spec claim: a category's subtotal over its displayed
items whose quantity parses. -/
def specGroupTotal (ref : RefDB) (items : List ExcelRow) : ℚ :=
  (items.map (fun e =>
    match parseF64 e.«数量» with
    | some q => q * real_carbon_factor ref e
    | Option.none => 0)).sum

/-- Modelled from the spec claim: the category-header marker row opening a
category group. -/
def specHeaderRow (ref : RefDB) (c : Category) (items : List ExcelRow) : SubItemRow :=
  { «序号» := groupTitleLabel c, «编码» := "", «名称及规格» := headerTextOf c
    «单位» := "", «数量» := "", «碳排放因子» := Option.none
    «碳排放量» := some (specGroupTotal ref items), category := c }

/-- Modelled from the spec claim: one category group — header row then its
displayed items renumbered from 1 in original import order. -/
def specBlock (ref : RefDB) (rows : List ExcelRow) (c : Category) : List SubItemRow :=
  specHeaderRow ref c (displayItems rows c) ::
    (List.enumFrom 1 (displayItems rows c)).map (fun p => specItemRow ref p.1 p.2)

/-- Blocks joined with exactly one blank separator between consecutive
blocks and none after the last. -/
def sepJoin : List (List SubItemRow) → List SubItemRow
  | [] => []
  | [b] => b
  | b :: bs => b ++ SubItemRow.blank :: sepJoin bs

/-- Modelled from the spec claim (amended): the drill-down list is, for each
of Labor, Material, Machine — in that order — with at least one displayed
item, its group, with single blank separators between groups. -/
def drillDownSpec (ref : RefDB) (rows : List ExcelRow) : List SubItemRow :=
  sepJoin
    (([Category.labor, Category.material, Category.machine].filter
        (fun c => !(displayItems rows c).isEmpty)).map (specBlock ref rows))

/-! ### Result-table state and the engineering-volume edit
(ResultTableDelegate and the modal of render_td, lines 1529-1711) -/

structure ResultTableDelegate where
  total_rows : List ResultRow
  sub_rows : List SubItemRow
  columns : List String
  deriving DecidableEq

/-- The in-memory application state the modal can reach: the persisted store,
the reference tables and the result-table delegate. -/
structure AppState where
  db : DbState
  ref : RefDB
  delegate : ResultTableDelegate
  deriving DecidableEq

/-- `total_rows.get_mut(i)`: modify in place when the index is valid. -/
def modifyAt (f : α → α) : ℕ → List α → List α
  | _, [] => []
  | 0, a :: as => f a :: as
  | n + 1, a :: as => a :: modifyAt f n as

/-- The 工程量 modal's confirm handler: when the input is empty or parses as
a number, set 可研估算 of the chosen in-memory row and close the modal
(`true`); otherwise leave everything unchanged and keep the modal open.
Nothing else — in particular no store table — is written. -/
def editVolume (st : AppState) (row_index : ℕ) (new_value : String) : AppState × Bool :=
  if new_value = "" ∨ (parseF64 new_value).isSome then
    ({ st with delegate := { st.delegate with
        total_rows := modifyAt (fun r => { r with «可研估算» := new_value })
          row_index st.delegate.total_rows } }, true)
  else (st, false)

/-- The loader-stage rows of one category group that survive `set_rows`'
first pass: the loader's renumbered items whose 编码 is non-empty. -/
def keptItems (ref : RefDB) (rows : List ExcelRow) (c : Category) : List SubItemRow :=
  ((List.enumFrom 1 (categoryItems rows c)).filter (fun p => p.2.«编码» ≠ "")).map
    (fun p => loadSubItem ref p.1 p.2)

/-- The reference table the CASE expression consults for a category (no
table for Uncategorized). -/
def refTableFor (ref : RefDB) : Category → List RefEntry
  | Category.labor => ref.labor
  | Category.material => ref.material
  | Category.machine => ref.machine
  | Category.none => []

/-! ## Supporting lemmas -/

theorem startsWithLME_letter_append (c : Category) (code : String)
    (hc : c ≠ Category.none) : startsWithLME (c.letterOf ++ code) = true := by
  cases c with
  | labor => simp [startsWithLME, String.toList, String.data_append, Category.letterOf]
  | material => simp [startsWithLME, String.toList, String.data_append, Category.letterOf]
  | machine => simp [startsWithLME, String.toList, String.data_append, Category.letterOf]
  | none => exact absurd rfl hc

/-! ## Claim theorems -/

/-- C7 — Code prefixing during import is idempotent: a code already starting
with 'L', 'M' or 'E' is persisted unchanged, applying the prefixing step
twice equals applying it once, and a code not starting with any of the three
letters gets the current category's letter prepended. -/
theorem c7_code_prefixing (cat : Category) (code : String) :
    (startsWithLME code = true → applyLetter cat code = code)
    ∧ applyLetter cat (applyLetter cat code) = applyLetter cat code
    ∧ (startsWithLME code = false → applyLetter cat code = cat.letterOf ++ code) := by
  refine ⟨fun h => by simp [applyLetter, h], ?_, fun h => by simp [applyLetter, h]⟩
  by_cases h : startsWithLME code = true
  · simp [applyLetter, h]
  · have h' : startsWithLME code = false := by simpa using h
    by_cases hc : cat = Category.none
    · subst hc
      simp [applyLetter, h', Category.letterOf]
    · simp [applyLetter, h', startsWithLME_letter_append cat code hc]

theorem c7_witness :
    (startsWithLME "L123" = true → applyLetter Category.material "L123" = "L123")
    ∧ applyLetter Category.material (applyLetter Category.material "L123")
        = applyLetter Category.material "L123"
    ∧ (startsWithLME "L123" = false →
        applyLetter Category.material "L123" = Category.material.letterOf ++ "L123") :=
  c7_code_prefixing Category.material "L123"

/-- C8 counterexample — the category classifier trims its input, so the
near-match " 人工类别 " (extra surrounding whitespace, not exactly one of the
three markers) classifies as Labor instead of returning None as the claim
demands. -/
theorem c8_counterexample :
    " 人工类别 " ≠ "人工类别" ∧ " 人工类别 " ≠ "材料类别" ∧ " 人工类别 " ≠ "机械类别"
    ∧ Category.from_type_column " 人工类别 " = some Category.labor :=
  ⟨by decide, by decide, by decide, by decide⟩

/-- C8 (amended) — the classifier is a pure function of its input; for each
of the three marker strings, mapping `Category::prefix` over the classifier's
result yields the correct letter; and the classifier returns None exactly for
the strings whose *trimmed* form is not one of the three markers (the source
trims before matching, so whitespace-padded markers still classify). -/
theorem c8_classifier_amended :
    (∀ s : String, trimS s ≠ "人工类别" → trimS s ≠ "材料类别" → trimS s ≠ "机械类别" →
        Category.from_type_column s = Option.none)
    ∧ (Category.from_type_column "人工类别").map Category.letterOf = some "L"
    ∧ (Category.from_type_column "材料类别").map Category.letterOf = some "M"
    ∧ (Category.from_type_column "机械类别").map Category.letterOf = some "E" := by
  refine ⟨?_, by decide, by decide, by decide⟩
  intro s h1 h2 h3
  unfold Category.from_type_column
  split <;> simp_all

theorem c8_witness : Category.from_type_column "类别" = Option.none :=
  c8_classifier_amended.1 "类别" (by decide) (by decide) (by decide)

/-- C2 — factor resolution: the factor is the looked-up `carbon_factor` of
the stripped code in the item's category table; when no match exists, or the
category is Uncategorized, the factor defaults to 1.0 and the item
contributes quantity × 1.0 (not zero, and the computation is total). -/
theorem c2_factor_resolution (ref : RefDB) (e : ExcelRow) :
    (∀ r : RefEntry,
        refLookup (refTableFor ref e.category) (stripFirst e.«编码») = some r →
        real_carbon_factor ref e = r.carbon_factor)
    ∧ (refLookup (refTableFor ref e.category) (stripFirst e.«编码») = Option.none →
        rowEmission ref e = castFloat e.«数量» * 1)
    ∧ (e.category = Category.none → rowEmission ref e = castFloat e.«数量» * 1) := by
  refine ⟨?_, ?_, ?_⟩
  · intro r hr
    cases hcat : e.category with
    | labor =>
      rw [hcat] at hr
      simp only [refTableFor] at hr
      unfold real_carbon_factor
      rw [hcat, hr]
    | material =>
      rw [hcat] at hr
      simp only [refTableFor] at hr
      unfold real_carbon_factor
      rw [hcat, hr]
    | machine =>
      rw [hcat] at hr
      simp only [refTableFor] at hr
      unfold real_carbon_factor
      rw [hcat, hr]
    | none =>
      rw [hcat] at hr
      simp only [refTableFor] at hr
      simp [refLookup] at hr
  · intro h
    cases hcat : e.category with
    | labor =>
      rw [hcat] at h
      simp only [refTableFor] at h
      unfold rowEmission real_carbon_factor
      rw [hcat, h]
    | material =>
      rw [hcat] at h
      simp only [refTableFor] at h
      unfold rowEmission real_carbon_factor
      rw [hcat, h]
    | machine =>
      rw [hcat] at h
      simp only [refTableFor] at h
      unfold rowEmission real_carbon_factor
      rw [hcat, h]
    | none =>
      unfold rowEmission real_carbon_factor
      rw [hcat]
  · intro h
    unfold rowEmission real_carbon_factor
    rw [h]

theorem c2_witness :
    rowEmission ⟨[], [], []⟩ ⟨"1", "L9", "x", "u", "3", "", "", Category.labor⟩
      = castFloat "3" * 1 :=
  (c2_factor_resolution ⟨[], [], []⟩ ⟨"1", "L9", "x", "u", "3", "", "", Category.labor⟩).2.1 rfl

/-- C6 — when zero worksheets match the required-header heuristic, the
importer reports the distinct "no valid data" outcome and the store is left
exactly as it was (the initial delete-all is rolled back with the dropped
transaction). -/
theorem c6_no_valid_data (st : DbState) (wb : List WorkSheet)
    (h : ∀ ws ∈ wb, findHeaderIdx ws.cells = Option.none) :
    load_excel st wb = (st, ImportOutcome.noValidData) := by
  have himp : wb.filterMap importSheet = [] := by
    rw [List.filterMap_eq_nil_iff]
    intro ws hws
    have hh := h ws hws
    unfold importSheet
    by_cases hc : ws.cells.isEmpty <;> simp [hc, hh]
  simp [load_excel, himp]

theorem c6_witness :
    load_excel [⟨"旧表", []⟩] [⟨"Sheet1", [["a", "b"], ["c"]]⟩]
      = ([⟨"旧表", []⟩], ImportOutcome.noValidData) :=
  c6_no_valid_data [⟨"旧表", []⟩] [⟨"Sheet1", [["a", "b"], ["c"]]⟩]
    (by intro ws hws; fin_cases hws; decide)

/-- C10 — every row the aggregation produces is either a type-header row
(blank unit, volume and numeric cells) or a sheet-summary row whose 单位 is
the constant "m2" and whose engineering-volume cell is the constant
placeholder "右键编辑" — never derived from the imported data. -/
theorem c10_constant_unit (ref : RefDB) (db : DbState) (r : ResultRow)
    (h : r ∈ (updateData ref db).1) :
    (r.«单位» = "" ∧ r.«可研估算» = "" ∧ r.«人工» = Option.none ∧ r.«小计» = Option.none)
    ∨ (r.«单位» = "m2" ∧ r.«可研估算» = "右键编辑") := by
  obtain ⟨l, hl, hrl⟩ := List.mem_flatten.mp h
  obtain ⟨p, _, rfl⟩ := List.mem_map.mp hl
  rcases List.mem_cons.mp hrl with hr | hr
  · subst hr
    exact Or.inl ⟨rfl, rfl, rfl, rfl⟩
  · obtain ⟨q, _, rfl⟩ := List.mem_map.mp hr
    exact Or.inr ⟨rfl, rfl⟩

theorem c10_witness :
    ((typeHeaderRow 1 "a").«单位» = "" ∧ (typeHeaderRow 1 "a").«可研估算» = ""
      ∧ (typeHeaderRow 1 "a").«人工» = Option.none
      ∧ (typeHeaderRow 1 "a").«小计» = Option.none)
    ∨ ((typeHeaderRow 1 "a").«单位» = "m2" ∧ (typeHeaderRow 1 "a").«可研估算» = "右键编辑") :=
  c10_constant_unit ⟨[], [], []⟩ [⟨"a b", []⟩] (typeHeaderRow 1 "a") (by decide)

theorem modifyAt_getElem_ne {α : Type} (f : α → α) (i j : ℕ) (l : List α) (h : j ≠ i) :
    (modifyAt f i l)[j]? = l[j]? := by
  induction l generalizing i j with
  | nil => simp [modifyAt]
  | cons a as ih =>
    cases i with
    | zero =>
      cases j with
      | zero => exact absurd rfl h
      | succ j => simp [modifyAt]
    | succ i =>
      cases j with
      | zero => simp [modifyAt]
      | succ j => simpa [modifyAt] using ih i j (by omega)

theorem modifyAt_getElem_eq {α : Type} (f : α → α) (i : ℕ) (l : List α) (r : α)
    (h : l[i]? = some r) : (modifyAt f i l)[i]? = some (f r) := by
  induction l generalizing i with
  | nil => simp at h
  | cons a as ih =>
    cases i with
    | zero => simp_all [modifyAt]
    | succ i => simpa [modifyAt] using ih i (by simpa using h)

/-- C9 — frame property of the engineering-volume edit: with a valid input
(empty or numeric), the modal handler changes 可研估算 of the chosen
in-memory result row and nothing else — the persisted store, the reference
tables, the drill-down rows, the columns, every other result row, and every
other field of the edited row are unchanged. -/
theorem c9_edit_frame (st : AppState) (i : ℕ) (v : String)
    (hv : v = "" ∨ (parseF64 v).isSome) :
    (editVolume st i v).1.db = st.db
    ∧ (editVolume st i v).1.ref = st.ref
    ∧ (editVolume st i v).1.delegate.sub_rows = st.delegate.sub_rows
    ∧ (editVolume st i v).1.delegate.columns = st.delegate.columns
    ∧ (∀ j, j ≠ i →
        (editVolume st i v).1.delegate.total_rows[j]? = st.delegate.total_rows[j]?)
    ∧ (∀ r : ResultRow, st.delegate.total_rows[i]? = some r →
        (editVolume st i v).1.delegate.total_rows[i]? = some { r with «可研估算» := v }) := by
  unfold editVolume
  rw [if_pos hv]
  refine ⟨rfl, rfl, rfl, rfl, ?_, ?_⟩
  · intro j hj
    exact modifyAt_getElem_ne _ i j _ hj
  · intro r hr
    exact modifyAt_getElem_eq _ i _ r hr

theorem c9_witness :
    (editVolume ⟨[], ⟨[], [], []⟩, ⟨[typeHeaderRow 1 "k"], [], []⟩⟩ 0 "2.5").1.db = []
    ∧ (editVolume ⟨[], ⟨[], [], []⟩, ⟨[typeHeaderRow 1 "k"], [], []⟩⟩ 0 "2.5").1.ref = ⟨[], [], []⟩
    ∧ (editVolume ⟨[], ⟨[], [], []⟩, ⟨[typeHeaderRow 1 "k"], [], []⟩⟩ 0 "2.5").1.delegate.sub_rows = []
    ∧ (editVolume ⟨[], ⟨[], [], []⟩, ⟨[typeHeaderRow 1 "k"], [], []⟩⟩ 0 "2.5").1.delegate.columns = []
    ∧ (∀ j, j ≠ 0 →
        (editVolume ⟨[], ⟨[], [], []⟩, ⟨[typeHeaderRow 1 "k"], [], []⟩⟩ 0 "2.5").1.delegate.total_rows[j]?
          = [typeHeaderRow 1 "k"][j]?)
    ∧ (∀ r : ResultRow, [typeHeaderRow 1 "k"][0]? = some r →
        (editVolume ⟨[], ⟨[], [], []⟩, ⟨[typeHeaderRow 1 "k"], [], []⟩⟩ 0 "2.5").1.delegate.total_rows[0]?
          = some { r with «可研估算» := "2.5" }) :=
  c9_edit_frame ⟨[], ⟨[], [], []⟩, ⟨[typeHeaderRow 1 "k"], [], []⟩⟩ 0 "2.5"
    (Or.inr (by decide))

/-- C5 counterexample — "12abc" fails a numeric parse (Rust strict parse
rejects it), yet under the aggregation's SQLite `CAST` the row contributes
its numeric prefix 12, not the zero the claim demands: a one-row Labor sheet
totals 12. -/
theorem c5_counterexample :
    parseF64 "12abc" = Option.none
    ∧ categoryTotal ⟨[], [], []⟩
        [⟨"1", "L1", "x", "u", "12abc", "", "", Category.labor⟩] Category.labor = 12
    ∧ (12 : ℚ) ≠ 0 := by
  refine ⟨by decide, ?_, by norm_num⟩
  have hfil : ([⟨"1", "L1", "x", "u", "12abc", "", "", Category.labor⟩] : List ExcelRow).filter
      (fun e => e.category = Category.labor ∧ e.«数量» ≠ "")
      = [⟨"1", "L1", "x", "u", "12abc", "", "", Category.labor⟩] := by decide
  have hrcf : real_carbon_factor ⟨[], [], []⟩
      ⟨"1", "L1", "x", "u", "12abc", "", "", Category.labor⟩ = 1 := rfl
  have hns : numSplit ("12abc".toList.dropWhile Char.isWhitespace)
      = some ⟨false, ['1', '2'], [], false, [], ['a', 'b', 'c']⟩ := by decide
  have hd : digitsToNat ['1', '2'] = 12 := by decide
  have hcf : castFloat "12abc" = 12 := by
    unfold castFloat
    rw [hns]
    unfold tokenVal
    simp [hd, digitsToNat]
  unfold categoryTotal
  rw [hfil]
  simp [rowEmission, hrcf, hcf]

/-- C5 (amended) — per-row degradation under the aggregation's actual parse
(SQLite `CAST`): a line item whose quantity cell is empty or carries no
leading numeric token contributes exactly zero to its category subtotal —
removing it leaves the subtotal unchanged — and aggregation is a total
function of the remaining rows, no parse failure aborting it. (A non-numeric
cell with a numeric prefix such as "12abc" instead contributes the prefix
value; see the counterexample.) -/
theorem c5_unparsable_contributes_zero (ref : RefDB) (c : Category)
    (xs ys : List ExcelRow) (e : ExcelRow) (_hcat : e.category = c)
    (hq : numSplit (e.«数量».toList.dropWhile Char.isWhitespace) = Option.none) :
    categoryTotal ref (xs ++ e :: ys) c = categoryTotal ref (xs ++ ys) c := by
  have hcf : castFloat e.«数量» = 0 := by unfold castFloat; rw [hq]
  have hre : rowEmission ref e = 0 := by
    unfold rowEmission
    rw [hcf, zero_mul]
  unfold categoryTotal
  rw [List.filter_append, List.filter_append, List.filter_cons]
  by_cases hp : (decide (e.category = c ∧ e.«数量» ≠ "") = true)
  · rw [if_pos hp]
    simp [hre]
  · rw [if_neg hp]

theorem c5_witness :
    categoryTotal ⟨[], [], []⟩
      ([] ++ (⟨"1", "L1", "x", "u", "abc", "", "", Category.labor⟩ : ExcelRow)
        :: [⟨"2", "L2", "y", "u", "2", "", "", Category.labor⟩]) Category.labor
    = categoryTotal ⟨[], [], []⟩
        ([] ++ [⟨"2", "L2", "y", "u", "2", "", "", Category.labor⟩]) Category.labor :=
  c5_unparsable_contributes_zero ⟨[], [], []⟩ Category.labor [] _
    ⟨"1", "L1", "x", "u", "abc", "", "", Category.labor⟩ rfl (by decide)

/-- C3 counterexample — with sheets ["道路工程 A", "交通工程 B", "道路工程 C"],
sorted-key order puts 交通工程 (交 U+4EA4) before 道路工程 (道 U+9053), so the
aggregation does NOT produce the claimed sequence headed by "一"→"道路工程". -/
theorem c3_counterexample :
    ((updateData ⟨[], [], []⟩
        [⟨"道路工程 A", []⟩, ⟨"交通工程 B", []⟩, ⟨"道路工程 C", []⟩]).1.map
      (fun r => (r.«序号», r.«项目名称»)))
      ≠ [("一", "道路工程"), ("1", "A"), ("2", "C"), ("二", "交通工程"), ("1", "B")] := by
  decide

/-- C3 (amended) — grouping by the first sheet-name token, type groups in
sorted key order with sheets in insertion order inside, Chinese numerals
一,二,三 then Arabic from the fourth group: for the claimed input the two
type headers come out "一"→"交通工程" then "二"→"道路工程" (交 sorts before 道 in
code-point order), with "A" before "C" under 道路工程; a five-group input
shows the 一,二,三,4,5 ordinal sequence. -/
theorem c3_grouping_amended :
    ((updateData ⟨[], [], []⟩
        [⟨"道路工程 A", []⟩, ⟨"交通工程 B", []⟩, ⟨"道路工程 C", []⟩]).1.map
      (fun r => (r.«序号», r.«项目名称»)))
      = [("一", "交通工程"), ("1", "B"), ("二", "道路工程"), ("1", "A"), ("2", "C")]
    ∧ ((updateData ⟨[], [], []⟩
        [⟨"a 1", []⟩, ⟨"b 2", []⟩, ⟨"c 3", []⟩, ⟨"d 4", []⟩, ⟨"e 5", []⟩]).1.map
      (fun r => (r.«序号», r.«项目名称»)))
      = [("一", "a"), ("1", "1"), ("二", "b"), ("1", "2"), ("三", "c"), ("1", "3"),
         ("4", "d"), ("1", "4"), ("5", "e"), ("1", "5")] :=
  ⟨by decide, by decide⟩

theorem mem_insertSorted {a s : String} : ∀ {l : List String},
    a ∈ insertSorted s l ↔ a = s ∨ a ∈ l := by
  intro l
  induction l with
  | nil => simp [insertSorted]
  | cons t ts ih =>
    unfold insertSorted
    by_cases h : strLeB s t = true
    · simp [h]
    · simp only [h]
      rw [if_neg (by simpa using h)]
      simp only [List.mem_cons, ih]
      tauto

theorem mem_sortKeys {a : String} : ∀ {l : List String}, a ∈ sortKeys l ↔ a ∈ l := by
  intro l
  induction l with
  | nil => simp [sortKeys]
  | cons b bs ih =>
    show a ∈ insertSorted b (sortKeys bs) ↔ _
    rw [mem_insertSorted]
    simp [ih]

theorem enumFrom_exists_of_mem {α : Type} {a : α} :
    ∀ {l : List α} (n : ℕ), a ∈ l → ∃ i, (i, a) ∈ List.enumFrom n l := by
  intro l
  induction l with
  | nil => intro n h; simp at h
  | cons b bs ih =>
    intro n h
    rcases List.mem_cons.mp h with rfl | h
    · exact ⟨n, by simp [List.enumFrom]⟩
    · obtain ⟨i, hi⟩ := ih (n + 1) h
      exact ⟨i, by simp [List.enumFrom, hi]⟩

theorem castFloat_empty : castFloat "" = 0 := rfl

theorem categoryTotal_eq_sum (ref : RefDB) (c : Category) (rows : List ExcelRow) :
    categoryTotal ref rows c
      = ((rows.filter (fun e => e.category = c)).map (rowEmission ref)).sum := by
  induction rows with
  | nil => rfl
  | cons e es ih =>
    unfold categoryTotal at ih ⊢
    rw [List.filter_cons, List.filter_cons]
    by_cases h1 : e.category = c
    · by_cases h2 : e.«数量» = ""
      · have hre : rowEmission ref e = 0 := by
          unfold rowEmission
          rw [h2, castFloat_empty, zero_mul]
        rw [if_neg (by simp [h1, h2]), if_pos (by simp [h1])]
        rw [List.map_cons, List.sum_cons, hre, zero_add]
        exact ih
      · rw [if_pos (by simp [h1, h2]), if_pos (by simp [h1])]
        rw [List.map_cons, List.sum_cons, List.map_cons, List.sum_cons, ih]
    · rw [if_neg (by simp [h1]), if_neg (by simp [h1])]
      exact ih

/-- C1 — for every imported sheet the aggregation emits a sheet-summary row
whose Labor/Material/Machine subtotals are the sums of quantity × factor over
that sheet's line items of the matching category, and whose grand subtotal
小计 is exactly the sum of the three category subtotals. -/
theorem c1_sheet_summary_sums (ref : RefDB) (db : DbState) (s : SheetData)
    (hs : s ∈ db) :
    ∃ r ∈ (updateData ref db).1,
      r.«人工» = some (((s.rows.filter (fun e => e.category = Category.labor)).map
          (rowEmission ref)).sum)
      ∧ r.«材料» = some (((s.rows.filter (fun e => e.category = Category.material)).map
          (rowEmission ref)).sum)
      ∧ r.«机械» = some (((s.rows.filter (fun e => e.category = Category.machine)).map
          (rowEmission ref)).sum)
      ∧ r.«小计» = some
          (((s.rows.filter (fun e => e.category = Category.labor)).map
              (rowEmission ref)).sum
            + ((s.rows.filter (fun e => e.category = Category.material)).map
              (rowEmission ref)).sum
            + ((s.rows.filter (fun e => e.category = Category.machine)).map
              (rowEmission ref)).sum) := by
  have hkey : sheetTypeOf s.name ∈ typeKeys db := by
    unfold typeKeys
    rw [mem_sortKeys, List.mem_dedup]
    exact List.mem_map.mpr ⟨s, hs, rfl⟩
  obtain ⟨j, hj⟩ := enumFrom_exists_of_mem 1 hkey
  have hsg : s ∈ sheetsOfType db (sheetTypeOf s.name) := by
    unfold sheetsOfType
    rw [List.mem_filter]
    exact ⟨hs, by simp⟩
  obtain ⟨i, hi⟩ := enumFrom_exists_of_mem 1 hsg
  refine ⟨sheetSummaryRow ref i s, ?_, ?_, ?_, ?_, ?_⟩
  · show sheetSummaryRow ref i s ∈ (updateData ref db).1
    refine List.mem_flatten.mpr ⟨groupResultRows ref j (sheetTypeOf s.name) db, ?_, ?_⟩
    · exact List.mem_map.mpr ⟨(j, sheetTypeOf s.name), hj, rfl⟩
    · unfold groupResultRows
      exact List.mem_cons.mpr (Or.inr (List.mem_map.mpr ⟨(i, s), hi, rfl⟩))
  · show some (categoryTotal ref s.rows Category.labor) = _
    rw [categoryTotal_eq_sum]
  · show some (categoryTotal ref s.rows Category.material) = _
    rw [categoryTotal_eq_sum]
  · show some (categoryTotal ref s.rows Category.machine) = _
    rw [categoryTotal_eq_sum]
  · show some (categoryTotal ref s.rows Category.labor
        + categoryTotal ref s.rows Category.material
        + categoryTotal ref s.rows Category.machine) = _
    rw [categoryTotal_eq_sum, categoryTotal_eq_sum, categoryTotal_eq_sum]

theorem c1_witness :
    ∃ r ∈ (updateData ⟨[], [], []⟩
        [⟨"道路工程 A", [⟨"1", "L1", "n", "u", "5", "", "", Category.labor⟩]⟩]).1,
      r.«人工» = some ((((⟨"道路工程 A",
            [⟨"1", "L1", "n", "u", "5", "", "", Category.labor⟩]⟩ : SheetData).rows.filter
          (fun e => e.category = Category.labor)).map (rowEmission ⟨[], [], []⟩)).sum)
      ∧ r.«材料» = some ((((⟨"道路工程 A",
            [⟨"1", "L1", "n", "u", "5", "", "", Category.labor⟩]⟩ : SheetData).rows.filter
          (fun e => e.category = Category.material)).map (rowEmission ⟨[], [], []⟩)).sum)
      ∧ r.«机械» = some ((((⟨"道路工程 A",
            [⟨"1", "L1", "n", "u", "5", "", "", Category.labor⟩]⟩ : SheetData).rows.filter
          (fun e => e.category = Category.machine)).map (rowEmission ⟨[], [], []⟩)).sum)
      ∧ r.«小计» = some
          ((((⟨"道路工程 A",
              [⟨"1", "L1", "n", "u", "5", "", "", Category.labor⟩]⟩ : SheetData).rows.filter
            (fun e => e.category = Category.labor)).map (rowEmission ⟨[], [], []⟩)).sum
          + (((⟨"道路工程 A",
              [⟨"1", "L1", "n", "u", "5", "", "", Category.labor⟩]⟩ : SheetData).rows.filter
            (fun e => e.category = Category.material)).map (rowEmission ⟨[], [], []⟩)).sum
          + (((⟨"道路工程 A",
              [⟨"1", "L1", "n", "u", "5", "", "", Category.labor⟩]⟩ : SheetData).rows.filter
            (fun e => e.category = Category.machine)).map (rowEmission ⟨[], [], []⟩)).sum) :=
  c1_sheet_summary_sums ⟨[], [], []⟩ _ _ (List.mem_singleton.mpr rfl)

/-! Lemmas for the drill-down refinement (C4). -/

theorem enumFrom_snd_mem {α : Type} {p : ℕ × α} :
    ∀ {l : List α} {n : ℕ}, p ∈ List.enumFrom n l → p.2 ∈ l := by
  intro l
  induction l with
  | nil => intro n h; simp [List.enumFrom] at h
  | cons b bs ih =>
    intro n h
    rw [List.enumFrom] at h
    rcases List.mem_cons.mp h with rfl | h
    · simp
    · exact List.mem_cons.mpr (Or.inr (ih h))

theorem enumFrom_map {α β : Type} (f : α → β) :
    ∀ (l : List α) (n : ℕ),
      List.enumFrom n (l.map f) = (List.enumFrom n l).map (fun p => (p.1, f p.2)) := by
  intro l
  induction l with
  | nil => intro n; rfl
  | cons b bs ih =>
    intro n
    rw [List.map_cons, List.enumFrom, List.enumFrom, List.map_cons, ih]

theorem map_snd_filter_enumFrom {α : Type} (pred : α → Bool) :
    ∀ (l : List α) (n : ℕ),
      (((List.enumFrom n l).filter (fun p => pred p.2)).map Prod.snd) = l.filter pred := by
  intro l
  induction l with
  | nil => intro n; rfl
  | cons b bs ih =>
    intro n
    rw [List.enumFrom, List.filter_cons, List.filter_cons]
    by_cases hb : pred b = true
    · simp only [hb, if_pos]
      rw [List.map_cons, ih]
    · simp only [hb]
      rw [if_neg (by simpa using hb), if_neg (by simpa using hb), ih]

theorem isEmpty_map {α β : Type} (f : α → β) (l : List α) :
    (l.map f).isEmpty = l.isEmpty := by
  cases l <;> rfl

theorem categoryItems_of_not_present {rows : List ExcelRow} {c : Category}
    (h : categoryPresent rows c = false) : categoryItems rows c = [] := by
  unfold categoryItems
  rw [List.filter_eq_nil_iff]
  intro e he
  unfold categoryPresent at h
  rw [List.any_eq_false] at h
  have := h e he
  simp only [decide_eq_true_eq] at this
  simp [this]

theorem keptItems_of_not_present (ref : RefDB) {rows : List ExcelRow} {c : Category}
    (h : categoryPresent rows c = false) : keptItems ref rows c = [] := by
  unfold keptItems
  rw [categoryItems_of_not_present h]
  rfl

theorem keptItems_isEmpty_eq (ref : RefDB) (rows : List ExcelRow) (c : Category) :
    (keptItems ref rows c).isEmpty = (displayItems rows c).isEmpty := by
  unfold keptItems displayItems
  rw [isEmpty_map]
  rw [← map_snd_filter_enumFrom (fun e => e.«编码» ≠ "") (categoryItems rows c) 1]
  rw [isEmpty_map]

theorem from_type_column_headerText {c : Category} (hc : c ≠ Category.none) :
    Category.from_type_column (headerTextOf c) = some c := by
  cases c with
  | labor => decide
  | material => decide
  | machine => decide
  | none => exact absurd rfl hc

theorem scanGroups_nil (cat : Category) (cur : List SubItemRow) :
    scanGroups [] cat cur = if cur.isEmpty then [] else [(cat, cur)] := rfl

theorem scanGroups_header {c : Category} (hc : c ≠ Category.none)
    (rest : List SubItemRow) (cat : Category) (cur : List SubItemRow) :
    scanGroups (subHeaderRow c :: rest) cat cur
      = (if cur.isEmpty then [] else [(cat, cur)]) ++ scanGroups rest c [] := by
  rw [scanGroups]
  rw [show (subHeaderRow c).«名称及规格» = headerTextOf c from rfl]
  rw [from_type_column_headerText hc]
  by_cases h : cur.isEmpty = true
  · simp [h]
  · simp [h]

theorem scanGroups_blank (rest : List SubItemRow) (cat : Category) (cur : List SubItemRow) :
    scanGroups (SubItemRow.blank :: rest) cat cur = scanGroups rest cat cur := rfl

theorem scanGroups_items (ref : RefDB) :
    ∀ (l' : List (ℕ × ExcelRow)) (rest : List SubItemRow) (cat : Category)
      (cur : List SubItemRow),
      (∀ p ∈ l', Category.from_type_column p.2.«名称及规格» = Option.none) →
      scanGroups ((l'.map (fun p => loadSubItem ref p.1 p.2)) ++ rest) cat cur
        = scanGroups rest cat
            (cur ++ (l'.filter (fun p => p.2.«编码» ≠ "")).map
              (fun p => loadSubItem ref p.1 p.2)) := by
  intro l'
  induction l' with
  | nil => intro rest cat cur _; simp
  | cons p ps ih =>
    intro rest cat cur h
    rw [List.map_cons, List.cons_append, scanGroups]
    have hm : Category.from_type_column (loadSubItem ref p.1 p.2).«名称及规格» = Option.none :=
      h p (List.mem_cons_self p ps)
    rw [hm]
    rw [List.filter_cons]
    by_cases hcode : p.2.«编码» = ""
    · rw [if_pos (show (loadSubItem ref p.1 p.2).«编码» = "" from hcode)]
      rw [if_neg (by simp [hcode])]
      exact ih rest cat cur (fun q hq => h q (List.mem_cons_of_mem p hq))
    · rw [if_neg (show ¬(loadSubItem ref p.1 p.2).«编码» = "" from hcode)]
      rw [if_pos (by simp [hcode])]
      rw [ih rest cat (cur ++ [loadSubItem ref p.1 p.2])
        (fun q hq => h q (List.mem_cons_of_mem p hq))]
      rw [List.map_cons, List.append_assoc, List.singleton_append]

theorem scanGroups_blocks (ref : RefDB) (rows : List ExcelRow)
    (hmk : ∀ e ∈ rows, Category.from_type_column e.«名称及规格» = Option.none) :
    ∀ (cats : List Category),
      (∀ c ∈ cats, c ≠ Category.none) →
      ∀ (cat : Category) (cur : List SubItemRow),
      scanGroups ((cats.map (loadSubItemsBlock ref rows)).flatten) cat cur
        = (if cur.isEmpty then [] else [(cat, cur)])
          ++ (cats.filter (fun c => !(keptItems ref rows c).isEmpty)).map
               (fun c => (c, keptItems ref rows c)) := by
  intro cats
  induction cats with
  | nil =>
    intro _ cat cur
    simp [scanGroups_nil]
  | cons c cs ih =>
    intro hgood cat cur
    have hc : c ≠ Category.none := hgood c (List.mem_cons_self c cs)
    have hgood' : ∀ d ∈ cs, d ≠ Category.none :=
      fun d hd => hgood d (List.mem_cons_of_mem c hd)
    rw [List.map_cons, List.flatten_cons]
    rw [show loadSubItemsBlock ref rows c
        = if categoryPresent rows c then
            subHeaderRow c ::
              ((List.enumFrom 1 (categoryItems rows c)).map (fun p => loadSubItem ref p.1 p.2)
                ++ (if c = Category.machine then [] else [SubItemRow.blank]))
          else [] from rfl]
    by_cases hpres : categoryPresent rows c = true
    · rw [if_pos hpres]
      rw [List.cons_append]
      rw [scanGroups_header hc]
      rw [List.append_assoc]
      rw [scanGroups_items ref (List.enumFrom 1 (categoryItems rows c)) _ c []
        (fun p hp => hmk p.2 (List.mem_of_mem_filter (enumFrom_snd_mem hp)))]
      rw [List.nil_append]
      rw [show ((List.enumFrom 1 (categoryItems rows c)).filter
            (fun p => p.2.«编码» ≠ "")).map (fun p => loadSubItem ref p.1 p.2)
          = keptItems ref rows c from rfl]
      have htail :
          scanGroups ((if c = Category.machine then [] else [SubItemRow.blank])
              ++ (cs.map (loadSubItemsBlock ref rows)).flatten) c (keptItems ref rows c)
            = (if (keptItems ref rows c).isEmpty then [] else [(c, keptItems ref rows c)])
              ++ (cs.filter (fun d => !(keptItems ref rows d).isEmpty)).map
                   (fun d => (d, keptItems ref rows d)) := by
        by_cases hmach : c = Category.machine
        · rw [if_pos hmach, List.nil_append]
          exact ih hgood' c (keptItems ref rows c)
        · rw [if_neg hmach, List.singleton_append, scanGroups_blank]
          exact ih hgood' c (keptItems ref rows c)
      rw [htail]
      rw [List.filter_cons]
      by_cases hke : (keptItems ref rows c).isEmpty = true
      · simp [hke]
      · have hke' : (keptItems ref rows c).isEmpty = false := by simpa using hke
        simp [hke']
    · rw [if_neg hpres]
      rw [List.nil_append]
      rw [ih hgood' cat cur]
      rw [List.filter_cons]
      have hke : keptItems ref rows c = [] :=
        keptItems_of_not_present ref (by simpa using hpres)
      simp [hke]

theorem renderItem_loadSubItem (ref : RefDB) (i j : ℕ) (e : ExcelRow) :
    renderItem i (loadSubItem ref j e) = specItemRow ref i e := by
  cases hp : parseF64 e.«数量» <;>
    simp [renderItem, loadSubItem, specItemRow, hp]

theorem groupCategoryName_append (c : Category) (hc : c ≠ Category.none) :
    groupCategoryName c ++ "类别" = headerTextOf c := by
  cases c with
  | labor => decide
  | material => decide
  | machine => decide
  | none => exact absurd rfl hc

theorem groupTotal_kept (ref : RefDB) (rows : List ExcelRow) (c : Category) :
    groupTotal (keptItems ref rows c) = specGroupTotal ref (displayItems rows c) := by
  unfold groupTotal specGroupTotal keptItems displayItems
  rw [← map_snd_filter_enumFrom (fun e => e.«编码» ≠ "") (categoryItems rows c) 1]
  rw [List.map_map, List.map_map]
  refine congrArg List.sum (List.map_congr_left (fun p _ => ?_))
  cases hp : parseF64 p.2.«数量» <;>
    simp [loadSubItem, Function.comp, hp]

theorem renderItems_kept (ref : RefDB) (rows : List ExcelRow) (c : Category) :
    (List.enumFrom 1 (keptItems ref rows c)).map (fun p => renderItem p.1 p.2)
      = (List.enumFrom 1 (displayItems rows c)).map (fun p => specItemRow ref p.1 p.2) := by
  unfold keptItems displayItems
  rw [← map_snd_filter_enumFrom (fun e => e.«编码» ≠ "") (categoryItems rows c) 1]
  rw [enumFrom_map, enumFrom_map, List.map_map, List.map_map]
  refine List.map_congr_left (fun p _ => ?_)
  simp only [Function.comp]
  exact renderItem_loadSubItem ref p.1 p.2.1 p.2.2

theorem renderGroup_kept (ref : RefDB) (rows : List ExcelRow) (c : Category)
    (hc : c ≠ Category.none) :
    renderGroup c (keptItems ref rows c) = specBlock ref rows c := by
  unfold renderGroup specBlock
  rw [renderItems_kept]
  congr 1
  unfold groupTitleRow specHeaderRow
  rw [groupCategoryName_append c hc, groupTotal_kept]

theorem emitGroups_sepJoin (ref : RefDB) (rows : List ExcelRow) :
    ∀ (cs : List Category), (∀ c ∈ cs, c ≠ Category.none) →
      emitGroups (cs.map (fun c => (c, keptItems ref rows c)))
        = sepJoin (cs.map (specBlock ref rows)) := by
  intro cs
  induction cs with
  | nil => intro _; rfl
  | cons c cs' ih =>
    intro hgood
    have hc : c ≠ Category.none := hgood c (List.mem_cons_self c cs')
    have hgood' : ∀ d ∈ cs', d ≠ Category.none :=
      fun d hd => hgood d (List.mem_cons_of_mem c hd)
    cases cs' with
    | nil =>
      show renderGroup c (keptItems ref rows c) = specBlock ref rows c
      exact renderGroup_kept ref rows c hc
    | cons c2 cs'' =>
      have ih' := ih hgood'
      simp only [List.map_cons] at ih' ⊢
      rw [show emitGroups ((c, keptItems ref rows c) :: (c2, keptItems ref rows c2)
            :: List.map (fun d => (d, keptItems ref rows d)) cs'')
          = renderGroup c (keptItems ref rows c)
            ++ SubItemRow.blank :: emitGroups ((c2, keptItems ref rows c2)
              :: List.map (fun d => (d, keptItems ref rows d)) cs'') from rfl]
      rw [show sepJoin (specBlock ref rows c :: specBlock ref rows c2
            :: List.map (specBlock ref rows) cs'')
          = specBlock ref rows c
            ++ SubItemRow.blank :: sepJoin (specBlock ref rows c2
              :: List.map (specBlock ref rows) cs'') from rfl]
      rw [renderGroup_kept ref rows c hc, ih']

/-- C4 counterexample — a sheet whose Labor category is present through a
single line item with an empty 编码: the drill-down list comes out empty, so
the category-header row and the item the claim requires are not emitted. -/
theorem c4_counterexample :
    categoryPresent [⟨"3", "", "零工", "工日", "7", "", "", Category.labor⟩]
        Category.labor = true
    ∧ (categoryItems [⟨"3", "", "零工", "工日", "7", "", "", Category.labor⟩]
        Category.labor).length = 1
    ∧ drillDown ⟨[], [], []⟩ [⟨"3", "", "零工", "工日", "7", "", "", Category.labor⟩] = [] :=
  ⟨by decide, by decide, by decide⟩

/-- C4 (amended) — for any sheet rows none of which is itself a category
marker (the importer never persists marker rows), the drill-down list equals:
for each of Labor, Material, Machine — always in that order, regardless of
input order — that has at least one *displayed* line item (non-empty 编码 and
名称及规格 not ending in 类别; other items are dropped, which is what the
counterexample exhibits), a category-header row followed by those items
renumbered from 1 in original import order, with exactly one blank separator
between consecutive groups and none after the last. -/
theorem c4_drill_down_amended (ref : RefDB) (rows : List ExcelRow)
    (hmk : ∀ e ∈ rows, Category.from_type_column e.«名称及规格» = Option.none) :
    drillDown ref rows = drillDownSpec ref rows := by
  unfold drillDown set_rows load_sub_items
  have h3 : loadSubItemsBlock ref rows Category.labor
        ++ loadSubItemsBlock ref rows Category.material
        ++ loadSubItemsBlock ref rows Category.machine
      = (([Category.labor, Category.material, Category.machine].map
          (loadSubItemsBlock ref rows)).flatten) := by
    simp [List.append_assoc]
  rw [h3]
  rw [scanGroups_blocks ref rows hmk
    [Category.labor, Category.material, Category.machine]
    (by intro c hc; fin_cases hc <;> decide) Category.none []]
  rw [show (([] : List SubItemRow).isEmpty) = true from rfl, if_pos rfl]
  rw [List.nil_append]
  rw [emitGroups_sepJoin ref rows _
    (fun c hc => by
      have := List.mem_of_mem_filter hc
      fin_cases this <;> decide)]
  unfold drillDownSpec
  congr 1
  congr 1
  exact List.filter_congr (fun c _ => by rw [keptItems_isEmpty_eq])

theorem c4_witness :
    drillDown ⟨[], [], []⟩
        [⟨"1", "L100", "零工", "工日", "5", "", "", Category.labor⟩,
         ⟨"2", "M200", "水泥", "t", "2", "", "", Category.material⟩]
      = drillDownSpec ⟨[], [], []⟩
        [⟨"1", "L100", "零工", "工日", "5", "", "", Category.labor⟩,
         ⟨"2", "M200", "水泥", "t", "2", "", "", Category.material⟩] :=
  c4_drill_down_amended ⟨[], [], []⟩ _ (by intro e he; fin_cases he <;> decide)
